import Mathlib

/-!
Verification development for ib/opt/future.py (IbPy).

The file shallowly embeds the two classes of that module, `Future` and
`FutureFactory`, together with the `TimeoutException` error, and proves the
frozen claims about them.

Modelling conventions:
* Durations (`timeout`, `minwait`, `sleeptime`) are rationals, standing for
  the Python floats; wall-clock time is idealized so that after `k` executions
  of `sleep(self.sleeptime)` the elapsed time is exactly `k * sleeptime`.
* The producer thread is modelled by an environment `arrive : Nat -> List msg`
  giving the raw messages that the connection pushes through `notify` during
  the k-th sleep of the polling loop (`arrive 0` is unused: messages present
  when the getter starts are `Future.messages`).
* The polling loop of `_get_select` is given fuel to make it structurally
  recursive; `GetResult.noFuel` marks fuel exhaustion and the theorems show it
  does not occur once the fuel exceeds the number of polls the timeout allows.
* `raise TimeoutException()` is the `GetResult.timeoutErr` outcome, which also
  records the future object as the call leaves it and the poll index reached.
* Python `x[0]` and `x[-1]` on the buffer are modelled by `List.head?` and
  `List.getLast?`; the success path of the loop guarantees the buffer is
  non-empty, so the `Option` never hides an error that Python would raise.
-/

namespace IbFuture

/-- Modelled from the spec: the connection object (`ib.opt` connection) is not
under src/; the spec describes it as a registration table consumed through
`register(callback, eventTypeIdentifier)` and `unregisterAll(callback)`.
Callbacks are identified by a numeric id (the identity of a bound `notify`
method) and event types by strings; the table is the list of associations in
the order they were made. -/
structure Connection where
  regs : List (Nat × String)
deriving DecidableEq, Repr

/-- Modelled from the spec: `register(callback, eventType)` associates a
notification callback with one event-type identifier; it may be called several
times for the same callback with different identifiers. -/
def Connection.register (c : Connection) (cb : Nat) (t : String) : Connection :=
  ⟨c.regs ++ [(cb, t)]⟩

/-- Modelled from the spec: `unregisterAll(callback)` removes every
association of the given callback across all event-type identifiers. -/
def Connection.unregisterAll (c : Connection) (cb : Nat) : Connection :=
  ⟨c.regs.filter (fun p => p.1 ≠ cb)⟩

/-- The state of a `Future` object (class `Future` of ib/opt/future.py).
`cbId` identifies the bound method `self.notify` inside the connection's
table; `filter` is the message predicate, whose default (set by `__init__`)
accepts everything and which the factory may override. -/
structure Future (α : Type) where
  cbId : Nat
  con : Connection
  messages : List α
  timeout : ℚ
  minwait : ℚ
  sleeptime : ℚ
  autoclose : Bool
  filter : α → Bool

/-- The error raised by the `assert minwait < timeout` guard of
`Future.__init__`. -/
inductive AssertionError where
  | minwaitNotLessThanTimeout
deriving DecidableEq, Repr

/-- `Future.__init__`: checks `assert minwait < timeout, ...` and then stores
the connection and parameters with an empty message buffer and the default
accept-all filter.  Python defaults are `timeout=5.0, minwait=0.1,
sleeptime=0.1, autoclose=True`. -/
def Future.init (α : Type) (cbId : Nat) (connection : Connection)
    (timeout : ℚ := 5) (minwait : ℚ := 1/10) (sleeptime : ℚ := 1/10)
    (autoclose : Bool := true) : Except AssertionError (Future α) :=
  if minwait < timeout then
    .ok { cbId := cbId, con := connection, messages := []
          timeout := timeout, minwait := minwait, sleeptime := sleeptime
          autoclose := autoclose, filter := fun _ => true }
  else
    .error .minwaitNotLessThanTimeout

/-- `Future.notify(msg)`: if `self.filter(msg)` is false the message is
dropped, otherwise it is appended to `self.messages`. -/
def Future.notify (f : Future α) (msg : α) : Future α :=
  if f.filter msg then { f with messages := f.messages ++ [msg] } else f

/-- `Future.close()`: `self.con.unregisterAll(self.notify)`. -/
def Future.close (f : Future α) : Future α :=
  { f with con := f.con.unregisterAll f.cbId }

/-- Delivery of a burst of raw messages through `notify`, in order. -/
def deliver (f : Future α) (msgs : List α) : Future α :=
  msgs.foldl Future.notify f

/-- The future's state at the k-th poll of the waiting loop: the state when
the getter was called, updated by every `notify` the producer made during the
first k sleeps. -/
def stateAt (arrive : ℕ → List α) (f : Future α) : ℕ → Future α
  | 0 => f
  | k + 1 => deliver (stateAt arrive f k) (arrive (k + 1))

/-- Concatenation of the raw messages the producer delivered during the first
k sleeps. -/
def arrivalsUpTo (arrive : ℕ → List α) : ℕ → List α
  | 0 => []
  | k + 1 => arrivalsUpTo arrive k ++ arrive (k + 1)

/-- Outcome of a blocking getter: a normal return carrying the selected value,
the future as the call leaves it and the poll index at which the loop exited;
a raised `TimeoutException`, likewise with the state left behind and the poll
index; or fuel exhaustion of the embedding. -/
inductive GetResult (α β : Type) where
  | ok (v : β) (fut : Future α) (k : ℕ)
  | timeoutErr (fut : Future α) (k : ℕ)
  | noFuel

/-- `Future._get_select(select)`: poll loop
`while not self.messages or elapsedTime < self.minwait:` with body
`if elapsedTime > self.timeout: raise TimeoutException()` then
`sleep(self.sleeptime)`, and on exit `if self.autoclose: self.close()` and
`return select(self.messages)`.  The poll index `k` makes the idealized
elapsed time `k * sleeptime`; messages delivered during the k-th sleep are
merged by `deliver` before the k-th poll. -/
def getSelect [DecidableEq α] (sel : List α → β) (arrive : ℕ → List α) :
    ℕ → ℕ → Future α → GetResult α β
  | 0, _, _ => .noFuel
  | fuel + 1, k, f =>
    if f.messages ≠ [] ∧ f.minwait ≤ (k : ℚ) * f.sleeptime then
      .ok (sel f.messages) (if f.autoclose then f.close else f) k
    else if f.timeout < (k : ℚ) * f.sleeptime then
      .timeoutErr f k
    else
      getSelect sel arrive fuel (k + 1) (deliver f (arrive (k + 1)))

/-- `Future.get(first_not_recent=False)`: calls `_get_select` with the
selection `lambda x: x[0] if first_not_recent else x[-1]`. -/
def Future.get [DecidableEq α] (f : Future α) (arrive : ℕ → List α) (fuel : ℕ)
    ( first_not_recent : Bool := false) : GetResult α (Option α) :=
  getSelect (fun x => if first_not_recent then x.head? else x.getLast?)
    arrive fuel 0 f

/-- `Future.get_first()`: `self.get(first_not_recent=True)`. -/
def Future.get_first [DecidableEq α] (f : Future α) (arrive : ℕ → List α) (fuel : ℕ) :
    GetResult α (Option α) :=
  f.get arrive fuel true

/-- `Future.get_last()`: `self.get(first_not_recent=False)`. -/
def Future.get_last [DecidableEq α] (f : Future α) (arrive : ℕ → List α) (fuel : ℕ) :
    GetResult α (Option α) :=
  f.get arrive fuel false

/-- `Future.get_all()`: `self._get_select(lambda x: x)`. -/
def Future.get_all [DecidableEq α] (f : Future α) (arrive : ℕ → List α) (fuel : ℕ) :
    GetResult α (List α) :=
  getSelect id arrive fuel 0 f

/-- Apply a function to the returned value of a getter outcome. -/
def GetResult.mapValue (g : β → γ) : GetResult α β → GetResult α γ
  | .ok v f k => .ok (g v) f k
  | .timeoutErr f k => .timeoutErr f k
  | .noFuel => .noFuel

/-- Apply a function to the future left behind by a getter outcome. -/
def GetResult.mapFuture (g : Future α → Future α) : GetResult α β → GetResult α β
  | .ok v f k => .ok v (g f) k
  | .timeoutErr f k => .timeoutErr (g f) k
  | .noFuel => .noFuel

/-- The argument `msgTypes` of the factory: either a single string (which the
code wraps into a one-element list, `[msgTypes]`) or a list of identifiers. -/
inductive MsgTypes where
  | str (s : String)
  | many (ts : List String)
deriving DecidableEq, Repr

/-- The iteration `msgTypes if type(msgTypes) != str else [msgTypes]`. -/
def MsgTypes.toList : MsgTypes → List String
  | .str s => [s]
  | .many ts => ts

/-- Errors escaping `FutureFactory.create_filtered`: the `AssertionError` of
the `Future` constructor, or an exception `e` raised by `requestFct`, which
propagates with its payload untouched. -/
inductive CreateError (ε : Type) where
  | assertionError
  | request (e : ε)
deriving DecidableEq, Repr

/-- `FutureFactory.create_filtered(msgTypes, filter, requestFct, ...)`:
constructs `Future(self.con, **keyvalues)` (whose assertion may fail, before
anything touches the connection), overrides the filter when one is given
(`if filter: f.filter = filter`), registers `f.notify` under every identifier
of `msgTypes`, and only then runs `requestFct`, whose outcome `reqResult` is
given to the model as a value: an exception propagates after the
registrations, which stay in place.  The pair returned is the factory result
together with the connection as the call leaves it (Python mutates the shared
connection object; the successful future aliases it in its `con` field). -/
def FutureFactory.create_filtered (cbId : Nat) (con : Connection)
    (msgTypes : MsgTypes) (flt : Option (α → Bool))
    (reqResult : Except ε Unit)
    (timeout : ℚ := 5) (minwait : ℚ := 1/10) (sleeptime : ℚ := 1/10)
    (autoclose : Bool := true) :
    Except (CreateError ε) (Future α) × Connection :=
  match Future.init α cbId con timeout minwait sleeptime autoclose with
  | .error _ => (.error .assertionError, con)
  | .ok f0 =>
    let f1 := match flt with
      | none => f0
      | some p => { f0 with filter := p }
    let con1 := msgTypes.toList.foldl (fun c t => c.register cbId t) con
    match reqResult with
    | .error e => (.error (.request e), con1)
    | .ok _ => (.ok { f1 with con := con1 }, con1)

/-- `FutureFactory.create(msgTypes, requestFct, ...)`: calls
`self.create_filtered(msgTypes, None, requestFct, ...)`. -/
def FutureFactory.create (cbId : Nat) (con : Connection) (msgTypes : MsgTypes)
    (reqResult : Except ε Unit)
    (timeout : ℚ := 5) (minwait : ℚ := 1/10) (sleeptime : ℚ := 1/10)
    (autoclose : Bool := true) :
    Except (CreateError ε) (Future α) × Connection :=
  FutureFactory.create_filtered cbId con msgTypes none reqResult
    timeout minwait sleeptime autoclose

/-! Helper lemmas about delivery and the polling loop. -/

theorem notify_eq (f : Future α) (m : α) :
    f.notify m = { f with messages := f.messages ++ if f.filter m then [m] else [] } := by
  unfold Future.notify
  by_cases h : f.filter m = true <;> simp [h]

theorem deliver_eq (f : Future α) (ms : List α) :
    deliver f ms = { f with messages := f.messages ++ ms.filter f.filter } := by
  induction ms generalizing f with
  | nil => simp [deliver]
  | cons m ms ih =>
    have step : deliver f (m :: ms) = deliver (f.notify m) ms := rfl
    rw [step, ih, notify_eq]
    by_cases h : f.filter m = true <;>
      simp [h, List.filter_cons]

theorem stateAt_eq (arrive : ℕ → List α) (f : Future α) (k : ℕ) :
    stateAt arrive f k
      = { f with messages := f.messages ++ (arrivalsUpTo arrive k).filter f.filter } := by
  induction k with
  | zero => simp [stateAt, arrivalsUpTo]
  | succ k ih =>
    simp [stateAt, arrivalsUpTo, ih, deliver_eq, List.filter_append]

theorem stateAt_minwait (arrive : ℕ → List α) (f : Future α) (k : ℕ) :
    (stateAt arrive f k).minwait = f.minwait := by rw [stateAt_eq]

theorem stateAt_sleeptime (arrive : ℕ → List α) (f : Future α) (k : ℕ) :
    (stateAt arrive f k).sleeptime = f.sleeptime := by rw [stateAt_eq]

theorem stateAt_timeout (arrive : ℕ → List α) (f : Future α) (k : ℕ) :
    (stateAt arrive f k).timeout = f.timeout := by rw [stateAt_eq]

theorem stateAt_autoclose (arrive : ℕ → List α) (f : Future α) (k : ℕ) :
    (stateAt arrive f k).autoclose = f.autoclose := by rw [stateAt_eq]

theorem stateAt_con (arrive : ℕ → List α) (f : Future α) (k : ℕ) :
    (stateAt arrive f k).con = f.con := by rw [stateAt_eq]

theorem stateAt_cbId (arrive : ℕ → List α) (f : Future α) (k : ℕ) :
    (stateAt arrive f k).cbId = f.cbId := by rw [stateAt_eq]

theorem stateAt_messages (arrive : ℕ → List α) (f : Future α) (k : ℕ) :
    (stateAt arrive f k).messages
      = f.messages ++ (arrivalsUpTo arrive k).filter f.filter := by rw [stateAt_eq]

/-- The settle condition of the loop at poll j, phrased on the initial state:
the buffer at poll j is non-empty and the elapsed time has reached `minwait`. -/
def settledAt (arrive : ℕ → List α) (f : Future α) (j : ℕ) : Prop :=
  (stateAt arrive f j).messages ≠ [] ∧ f.minwait ≤ (j : ℚ) * f.sleeptime

theorem getSelect_ok_spec [DecidableEq α] (sel : List α → β) (arrive : ℕ → List α)
    (f : Future α) (v : β) (f' : Future α) :
    ∀ fuel k₀ k, getSelect sel arrive fuel k₀ (stateAt arrive f k₀) = .ok v f' k →
      k₀ ≤ k ∧ settledAt arrive f k ∧
      v = sel (stateAt arrive f k).messages ∧
      f' = (if f.autoclose then (stateAt arrive f k).close else stateAt arrive f k) ∧
      (∀ j, k₀ ≤ j → j < k →
        ¬ settledAt arrive f j ∧ (j : ℚ) * f.sleeptime ≤ f.timeout) := by
  intro fuel
  induction fuel with
  | zero => intro k₀ k h; exact absurd h (by simp [getSelect])
  | succ fuel ih =>
    intro k₀ k h
    rw [getSelect] at h
    by_cases h1 : (stateAt arrive f k₀).messages ≠ []
        ∧ (stateAt arrive f k₀).minwait ≤ (k₀ : ℚ) * (stateAt arrive f k₀).sleeptime
    · rw [if_pos h1] at h
      injection h with hv hf hk
      subst hk
      refine ⟨le_refl _, ?_, hv.symm, ?_, ?_⟩
      · exact ⟨h1.1, by
          have := h1.2
          rwa [stateAt_minwait, stateAt_sleeptime] at this⟩
      · rw [← hf, stateAt_autoclose]
      · intro j hj hj'; omega
    · rw [if_neg h1] at h
      by_cases h2 : (stateAt arrive f k₀).timeout < (k₀ : ℚ) * (stateAt arrive f k₀).sleeptime
      · rw [if_pos h2] at h; exact absurd h (by simp)
      · rw [if_neg h2] at h
        have hstep : deliver (stateAt arrive f k₀) (arrive (k₀ + 1))
            = stateAt arrive f (k₀ + 1) := rfl
        rw [hstep] at h
        obtain ⟨hle, hsettle, hv, hf, hmin⟩ := ih (k₀ + 1) k h
        refine ⟨by omega, hsettle, hv, hf, ?_⟩
        intro j hj hj'
        rcases Nat.eq_or_lt_of_le hj with rfl | hlt
        · constructor
          · intro hc
            exact h1 ⟨hc.1, by rw [stateAt_minwait, stateAt_sleeptime]; exact hc.2⟩
          · rw [stateAt_timeout, stateAt_sleeptime] at h2
            exact le_of_not_lt h2
        · exact hmin j hlt hj'

theorem getSelect_timeout_spec [DecidableEq α] (sel : List α → β) (arrive : ℕ → List α)
    (f : Future α) (f' : Future α) :
    ∀ fuel k₀ k, getSelect sel arrive fuel k₀ (stateAt arrive f k₀) = .timeoutErr f' k →
      k₀ ≤ k ∧ f' = stateAt arrive f k ∧
      f.timeout < (k : ℚ) * f.sleeptime ∧ ¬ settledAt arrive f k ∧
      (∀ j, k₀ ≤ j → j < k →
        ¬ settledAt arrive f j ∧ (j : ℚ) * f.sleeptime ≤ f.timeout) := by
  intro fuel
  induction fuel with
  | zero => intro k₀ k h; exact absurd h (by simp [getSelect])
  | succ fuel ih =>
    intro k₀ k h
    rw [getSelect] at h
    by_cases h1 : (stateAt arrive f k₀).messages ≠ []
        ∧ (stateAt arrive f k₀).minwait ≤ (k₀ : ℚ) * (stateAt arrive f k₀).sleeptime
    · rw [if_pos h1] at h; exact absurd h (by simp)
    · rw [if_neg h1] at h
      by_cases h2 : (stateAt arrive f k₀).timeout < (k₀ : ℚ) * (stateAt arrive f k₀).sleeptime
      · rw [if_pos h2] at h
        injection h with hf hk
        subst hk
        rw [stateAt_timeout, stateAt_sleeptime] at h2
        refine ⟨le_refl _, hf.symm, h2, ?_, ?_⟩
        · intro hc
          exact h1 ⟨hc.1, by rw [stateAt_minwait, stateAt_sleeptime]; exact hc.2⟩
        · intro j hj hj'; omega
      · rw [if_neg h2] at h
        have hstep : deliver (stateAt arrive f k₀) (arrive (k₀ + 1))
            = stateAt arrive f (k₀ + 1) := rfl
        rw [hstep] at h
        obtain ⟨hle, hf, htime, hns, hmin⟩ := ih (k₀ + 1) k h
        refine ⟨by omega, hf, htime, hns, ?_⟩
        intro j hj hj'
        rcases Nat.eq_or_lt_of_le hj with rfl | hlt
        · constructor
          · intro hc
            exact h1 ⟨hc.1, by rw [stateAt_minwait, stateAt_sleeptime]; exact hc.2⟩
          · rw [stateAt_timeout, stateAt_sleeptime] at h2
            exact le_of_not_lt h2
        · exact hmin j hlt hj'

theorem getSelect_empty [DecidableEq α] (sel : List α → β) (arrive : ℕ → List α)
    (f : Future α) (hmsg : f.messages = []) (harr : ∀ k, arrive k = []) :
    ∀ fuel k₀, f.timeout < ((k₀ + fuel : ℕ) : ℚ) * f.sleeptime →
      ∃ k, getSelect sel arrive (fuel + 1) k₀ f = .timeoutErr f k ∧
        f.timeout < (k : ℚ) * f.sleeptime ∧ k₀ ≤ k ∧
        ∀ j, k₀ ≤ j → j < k → (j : ℚ) * f.sleeptime ≤ f.timeout := by
  intro fuel
  induction fuel with
  | zero =>
    intro k₀ hfuel
    rw [Nat.add_zero] at hfuel
    refine ⟨k₀, ?_, hfuel, le_refl _, fun j hj hj' => by omega⟩
    rw [getSelect, if_neg (by simp [hmsg]), if_pos hfuel]
  | succ fuel ih =>
    intro k₀ hfuel
    by_cases h2 : f.timeout < (k₀ : ℚ) * f.sleeptime
    · refine ⟨k₀, ?_, h2, le_refl _, fun j hj hj' => by omega⟩
      rw [getSelect, if_neg (by simp [hmsg]), if_pos h2]
    · have hstep : getSelect sel arrive (fuel + 1 + 1) k₀ f
          = getSelect sel arrive (fuel + 1) (k₀ + 1) f := by
        rw [getSelect, if_neg (by simp [hmsg]), if_neg h2, harr, deliver]
        rfl
      obtain ⟨k, hk, ht, hle, hmin⟩ := ih (k₀ + 1)
        (by rw [show k₀ + 1 + fuel = k₀ + (fuel + 1) by omega]; exact hfuel)
      refine ⟨k, by rw [hstep]; exact hk, ht, by omega, ?_⟩
      intro j hj hj'
      rcases Nat.eq_or_lt_of_le hj with rfl | hlt
      · exact le_of_not_lt h2
      · exact hmin j hlt hj'

theorem getSelect_mapValue [DecidableEq α] (sel : List α → β) (arrive : ℕ → List α) :
    ∀ (fuel k : ℕ) (f : Future α),
      getSelect sel arrive fuel k f = (getSelect id arrive fuel k f).mapValue sel := by
  intro fuel
  induction fuel with
  | zero => intro k f; simp [getSelect, GetResult.mapValue]
  | succ fuel ih =>
    intro k f
    rw [getSelect, getSelect]
    by_cases h1 : f.messages ≠ [] ∧ f.minwait ≤ (k : ℚ) * f.sleeptime
    · rw [if_pos h1, if_pos h1]; rfl
    · rw [if_neg h1, if_neg h1]
      by_cases h2 : f.timeout < (k : ℚ) * f.sleeptime
      · rw [if_pos h2, if_pos h2]; rfl
      · rw [if_neg h2, if_neg h2]; exact ih (k + 1) _

/-! Helper lemmas about close. -/

theorem close_regs (f : Future α) :
    f.close.con.regs = f.con.regs.filter (fun p => p.1 ≠ f.cbId) := rfl

theorem close_frame (f : Future α) :
    f.close.cbId = f.cbId ∧ f.close.messages = f.messages ∧
    f.close.timeout = f.timeout ∧ f.close.minwait = f.minwait ∧
    f.close.sleeptime = f.sleeptime ∧ f.close.autoclose = f.autoclose ∧
    f.close.filter = f.filter :=
  ⟨rfl, rfl, rfl, rfl, rfl, rfl, rfl⟩

theorem close_close (f : Future α) : f.close.close = f.close := by
  simp only [Future.close, Connection.unregisterAll]
  congr 1
  simp [List.filter_filter]

theorem notify_close (f : Future α) (m : α) :
    f.close.notify m = (f.notify m).close := by
  simp only [Future.notify, Future.close]
  by_cases h : f.filter m = true <;> simp [h]

theorem deliver_close (f : Future α) (ms : List α) :
    deliver f.close ms = (deliver f ms).close := by
  induction ms generalizing f with
  | nil => rfl
  | cons m ms ih =>
    have l : deliver f.close (m :: ms) = deliver (f.close.notify m) ms := rfl
    have r : deliver f (m :: ms) = deliver (f.notify m) ms := rfl
    rw [l, r, notify_close, ih]

theorem getSelect_close [DecidableEq α] (sel : List α → β) (arrive : ℕ → List α) :
    ∀ (fuel k : ℕ) (f : Future α),
      getSelect sel arrive fuel k f.close
        = (getSelect sel arrive fuel k f).mapFuture Future.close := by
  intro fuel
  induction fuel with
  | zero => intro k f; simp [getSelect, GetResult.mapFuture]
  | succ fuel ih =>
    intro k f
    rw [getSelect, getSelect]
    by_cases h1 : f.messages ≠ [] ∧ f.minwait ≤ (k : ℚ) * f.sleeptime
    · rw [if_pos h1, if_pos (show f.close.messages ≠ []
          ∧ f.close.minwait ≤ (k : ℚ) * f.close.sleeptime from h1)]
      by_cases ha : f.autoclose = true
      · simp only [GetResult.mapFuture, show f.close.autoclose = f.autoclose from rfl, ha,
          if_pos, close_close]
        rfl
      · simp only [GetResult.mapFuture, show f.close.autoclose = f.autoclose from rfl,
          Bool.not_eq_true] at *
        simp only [ha, Bool.false_eq_true, if_false, GetResult.mapFuture]
        rfl
    · rw [if_neg (show ¬(f.close.messages ≠ []
          ∧ f.close.minwait ≤ (k : ℚ) * f.close.sleeptime) from h1), if_neg h1]
      by_cases h2 : f.timeout < (k : ℚ) * f.sleeptime
      · rw [if_pos h2, if_pos (show f.close.timeout < (k : ℚ) * f.close.sleeptime from h2)]
        rfl
      · rw [if_neg h2, if_neg (show ¬ f.close.timeout < (k : ℚ) * f.close.sleeptime from h2)]
        rw [deliver_close, ih]

/-! Helper lemma about registration. -/

theorem foldl_register_regs (cb : Nat) (ts : List String) (con : Connection) :
    (ts.foldl (fun c t => c.register cb t) con).regs
      = con.regs ++ ts.map (fun t => (cb, t)) := by
  induction ts generalizing con with
  | nil => simp
  | cons t ts ih =>
    have step : (t :: ts).foldl (fun c t => c.register cb t) con
        = ts.foldl (fun c t => c.register cb t) (con.register cb t) := rfl
    rw [step, ih]
    simp [Connection.register]

/-! Claim theorems. -/

/-- C5: every attempted construction with `minwait >= timeout` fails the
`assert minwait < timeout` guard of `Future.__init__` with an AssertionError
(the spec's ConfigurationError): no future object is produced, and since the
factory constructs the future before touching the connection, the failure
happens before any registration — `create_filtered` returns the connection
exactly as it received it. -/
theorem C5_config_error (α ε : Type) (cbId : Nat) (con : Connection)
    (timeout minwait sleeptime : ℚ) (autoclose : Bool) (mt : MsgTypes)
    (flt : Option (α → Bool)) (req : Except ε Unit)
    (h : timeout ≤ minwait) :
    Future.init α cbId con timeout minwait sleeptime autoclose
      = .error .minwaitNotLessThanTimeout
    ∧ FutureFactory.create_filtered cbId con mt flt req
        timeout minwait sleeptime autoclose
      = (.error .assertionError, con) := by
  have hi : Future.init α cbId con timeout minwait sleeptime autoclose
      = .error .minwaitNotLessThanTimeout := by
    unfold Future.init; rw [if_neg (not_lt.mpr h)]
  refine ⟨hi, ?_⟩
  unfold FutureFactory.create_filtered
  rw [hi]

/-- C5 witness: instantiated at `timeout = 1 <= 2 = minwait`. -/
theorem C5_config_error_witness :
    Future.init ℕ 0 ⟨[]⟩ 1 2 1 true = .error .minwaitNotLessThanTimeout
    ∧ FutureFactory.create_filtered (α := ℕ) 0 ⟨[]⟩ (.str "tick") none
        (.ok () : Except ℕ Unit) 1 2 1 true
      = (.error .assertionError, ⟨[]⟩) :=
  C5_config_error ℕ ℕ 0 ⟨[]⟩ 1 2 1 true (.str "tick") none (.ok ()) (by norm_num)

/-- C6: `close()` only rewrites the connection's registration table, removing
every association of the future's `notify` callback (for every event type);
calling it twice equals calling it once; the message buffer and every other
field are untouched; and the blocking getters on the closed future run
exactly as on the open one (same returned values, same poll index), so
already-buffered messages stay retrievable. -/
theorem C6_close_idempotent_frame [DecidableEq α] (f : Future α) :
    f.close.con.regs = f.con.regs.filter (fun p => p.1 ≠ f.cbId)
    ∧ (∀ t, (f.cbId, t) ∉ f.close.con.regs)
    ∧ f.close.close = f.close
    ∧ f.close.messages = f.messages
    ∧ f.close.filter = f.filter
    ∧ f.close.timeout = f.timeout
    ∧ f.close.minwait = f.minwait
    ∧ f.close.sleeptime = f.sleeptime
    ∧ f.close.autoclose = f.autoclose
    ∧ (∀ (arrive : ℕ → List α) (fuel : ℕ),
        f.close.get_all arrive fuel
          = (f.get_all arrive fuel).mapFuture Future.close
        ∧ f.close.get_first arrive fuel
          = (f.get_first arrive fuel).mapFuture Future.close
        ∧ f.close.get_last arrive fuel
          = (f.get_last arrive fuel).mapFuture Future.close) := by
  refine ⟨close_regs f, ?_, close_close f, rfl, rfl, rfl, rfl, rfl, rfl, ?_⟩
  · intro t hmem
    rw [close_regs] at hmem
    have := (List.mem_filter.mp hmem).2
    simp at this
  · intro arrive fuel
    exact ⟨getSelect_close id arrive fuel 0 f,
      getSelect_close _ arrive fuel 0 f,
      getSelect_close _ arrive fuel 0 f⟩

/-- Concrete future for the C6 witness: registered under two identifiers,
with another listener's registration interleaved, and one buffered
message. -/
def c6Future : Future ℕ :=
  { cbId := 1, con := ⟨[(1, "a"), (2, "b"), (1, "c")]⟩, messages := [5],
    timeout := 3, minwait := 1, sleeptime := 1, autoclose := false,
    filter := fun _ => true }

/-- C6 witness: the close contract instantiated on `c6Future`. -/
theorem C6_close_idempotent_frame_witness :
    c6Future.close.con.regs
      = c6Future.con.regs.filter (fun p => p.1 ≠ c6Future.cbId)
    ∧ (∀ t, (c6Future.cbId, t) ∉ c6Future.close.con.regs)
    ∧ c6Future.close.close = c6Future.close
    ∧ c6Future.close.messages = c6Future.messages
    ∧ c6Future.close.filter = c6Future.filter
    ∧ c6Future.close.timeout = c6Future.timeout
    ∧ c6Future.close.minwait = c6Future.minwait
    ∧ c6Future.close.sleeptime = c6Future.sleeptime
    ∧ c6Future.close.autoclose = c6Future.autoclose
    ∧ (∀ (arrive : ℕ → List ℕ) (fuel : ℕ),
        c6Future.close.get_all arrive fuel
          = (c6Future.get_all arrive fuel).mapFuture Future.close
        ∧ c6Future.close.get_first arrive fuel
          = (c6Future.get_first arrive fuel).mapFuture Future.close
        ∧ c6Future.close.get_last arrive fuel
          = (c6Future.get_last arrive fuel).mapFuture Future.close) :=
  C6_close_idempotent_frame c6Future

/-- C7: given a valid configuration, `create_filtered` registers the
listener's `notify` once for each identifier of `msgTypes` (a single string
is wrapped into a one-element list), and the registrations are all in place
whatever `requestFct` later does to the connection table returned; `create`
is literally `create_filtered` with a `None` filter, in which case the
constructed future keeps the default accept-all predicate. -/
theorem C7_factory_registration (α ε : Type) (cbId : Nat) (con : Connection)
    (timeout minwait sleeptime : ℚ) (autoclose : Bool) (mt : MsgTypes)
    (s : String) (flt : Option (α → Bool)) (req : Except ε Unit)
    (h : minwait < timeout) :
    (FutureFactory.create_filtered cbId con mt flt req
        timeout minwait sleeptime autoclose).2.regs
      = con.regs ++ mt.toList.map (fun t => (cbId, t))
    ∧ (MsgTypes.str s).toList = [s]
    ∧ FutureFactory.create (α := α) cbId con mt req
        timeout minwait sleeptime autoclose
      = FutureFactory.create_filtered cbId con mt none req
          timeout minwait sleeptime autoclose
    ∧ FutureFactory.create_filtered (ε := ε) cbId con mt none (.ok ())
        timeout minwait sleeptime autoclose
      = (.ok { cbId := cbId
               con := mt.toList.foldl (fun c t => c.register cbId t) con
               messages := ([] : List α), timeout := timeout, minwait := minwait
               sleeptime := sleeptime, autoclose := autoclose
               filter := fun _ => true },
         mt.toList.foldl (fun c t => c.register cbId t) con) := by
  refine ⟨?_, rfl, rfl, ?_⟩
  · unfold FutureFactory.create_filtered Future.init
    rw [if_pos h]
    cases flt <;> cases req <;>
      simp [foldl_register_regs]
  · unfold FutureFactory.create_filtered Future.init
    rw [if_pos h]

/-- C7 witness: two identifiers, a filter and a failing request on one
conjunct, the unfiltered successful path on the last. -/
theorem C7_factory_registration_witness :
    (FutureFactory.create_filtered 1 ⟨[(9, "pre")]⟩ (.many ["a", "b"])
        (some fun n : ℕ => n != 9) (.error 3 : Except ℕ Unit) 5 1 1 true).2.regs
      = [(9, "pre")] ++ [("a" : String), "b"].map (fun t => (1, t))
    ∧ (MsgTypes.str "solo").toList = ["solo"]
    ∧ FutureFactory.create (α := ℕ) 1 ⟨[(9, "pre")]⟩ (.many ["a", "b"])
        (.error 3 : Except ℕ Unit) 5 1 1 true
      = FutureFactory.create_filtered 1 ⟨[(9, "pre")]⟩ (.many ["a", "b"]) none
          (.error 3) 5 1 1 true
    ∧ FutureFactory.create_filtered (ε := ℕ) 1 ⟨[(9, "pre")]⟩ (.many ["a", "b"])
        none (.ok ()) 5 1 1 true
      = (.ok { cbId := 1
               con := (["a", "b"] : List String).foldl
                 (fun c t => c.register 1 t) ⟨[(9, "pre")]⟩
               messages := ([] : List ℕ), timeout := 5, minwait := 1
               sleeptime := 1, autoclose := true
               filter := fun _ => true },
         (["a", "b"] : List String).foldl (fun c t => c.register 1 t) ⟨[(9, "pre")]⟩) :=
  C7_factory_registration ℕ ℕ 1 ⟨[(9, "pre")]⟩ 5 1 1 true (.many ["a", "b"])
    "solo" (some fun n : ℕ => n != 9) (.error 3) (by norm_num)

/-- C8: when `requestFct` raises during `create_filtered` (or `create`), the
exception payload reaches the factory's caller untouched, and the
registrations already made for the listener are left in the connection's
table: no rollback happens. -/
theorem C8_request_error_propagates (α ε : Type) (cbId : Nat) (con : Connection)
    (timeout minwait sleeptime : ℚ) (autoclose : Bool) (mt : MsgTypes)
    (flt : Option (α → Bool)) (e : ε)
    (h : minwait < timeout) :
    FutureFactory.create_filtered cbId con mt flt (.error e)
        timeout minwait sleeptime autoclose
      = (.error (.request e),
         mt.toList.foldl (fun c t => c.register cbId t) con)
    ∧ (mt.toList.foldl (fun c t => c.register cbId t) con).regs
      = con.regs ++ mt.toList.map (fun t => (cbId, t))
    ∧ FutureFactory.create (α := α) cbId con mt (.error e)
        timeout minwait sleeptime autoclose
      = (.error (.request e),
         mt.toList.foldl (fun c t => c.register cbId t) con) := by
  have hmain : FutureFactory.create_filtered (α := α) cbId con mt flt (.error e)
      timeout minwait sleeptime autoclose
      = (.error (.request e),
         mt.toList.foldl (fun c t => c.register cbId t) con) := by
    unfold FutureFactory.create_filtered Future.init
    rw [if_pos h]
  refine ⟨hmain, foldl_register_regs cbId mt.toList con, ?_⟩
  unfold FutureFactory.create FutureFactory.create_filtered Future.init
  rw [if_pos h]

/-- C8 witness: a failing request with payload 42 after registering two
event types. -/
theorem C8_request_error_propagates_witness :
    FutureFactory.create_filtered 1 ⟨[]⟩ (.many ["a", "b"])
        (some fun n : ℕ => n != 9) (.error 42 : Except ℕ Unit) 5 1 1 true
      = (.error (.request 42),
         (["a", "b"] : List String).foldl (fun c t => c.register 1 t) ⟨[]⟩)
    ∧ ((["a", "b"] : List String).foldl (fun c t => c.register 1 t)
        (⟨[]⟩ : Connection)).regs
      = [] ++ [("a" : String), "b"].map (fun t => (1, t))
    ∧ FutureFactory.create (α := ℕ) 1 ⟨[]⟩ (.many ["a", "b"])
        (.error 42 : Except ℕ Unit) 5 1 1 true
      = (.error (.request 42),
         (["a", "b"] : List String).foldl (fun c t => c.register 1 t) ⟨[]⟩) :=
  C8_request_error_propagates ℕ ℕ 1 ⟨[]⟩ 5 1 1 true (.many ["a", "b"])
    (some fun n : ℕ => n != 9) 42 (by norm_num)

/-- C10: the future keeps no closed flag: `notify` commutes with `close`, a
message delivered after `close()` lands in the buffer exactly as it would
have before (appended when the filter accepts it, dropped when not), and the
only difference `close` makes to the object is its connection field. -/
theorem C10_notify_after_close (f : Future α) (m : α) :
    f.close.notify m = (f.notify m).close
    ∧ (f.close.notify m).messages = (f.notify m).messages
    ∧ (f.close.notify m).messages
      = f.messages ++ (if f.filter m then [m] else [])
    ∧ f.close.messages = f.messages
    ∧ f.close.filter = f.filter := by
  refine ⟨notify_close f m, ?_, ?_, rfl, rfl⟩
  · rw [notify_close f m]; rfl
  · rw [notify_close f m, notify_eq f m]
    rfl

/-- C1 amended: a blocking accessor over a buffer that stays empty raises
`TimeoutException` at the first poll whose idealized elapsed time strictly
exceeds `timeout` (`elapsedTime > self.timeout` in the source); it neither
hangs (the outcome is reached with any fuel beyond `timeout / sleeptime`
polls) nor returns a value, and the future is left unchanged.  Reaching
exactly `timeout` is not by itself a failure: the raise needs a strict
excess, see the counterexample. -/
theorem C1_timeout_on_empty [DecidableEq α] (f : Future α) (arrive : ℕ → List α)
    (fuel : ℕ) (hmsg : f.messages = []) (harr : ∀ k, arrive k = [])
    (hfuel : f.timeout < (fuel : ℚ) * f.sleeptime) :
    ∃ k, f.get_all arrive (fuel + 1) = .timeoutErr f k
      ∧ f.get_first arrive (fuel + 1) = .timeoutErr f k
      ∧ f.get_last arrive (fuel + 1) = .timeoutErr f k
      ∧ f.timeout < (k : ℚ) * f.sleeptime
      ∧ ∀ j, j < k → (j : ℚ) * f.sleeptime ≤ f.timeout := by
  obtain ⟨k, hk, ht, -, hmin⟩ := getSelect_empty id arrive f hmsg harr fuel 0
    (by simpa using hfuel)
  refine ⟨k, hk, ?_, ?_, ht, fun j hj => hmin j (Nat.zero_le j) hj⟩
  · show getSelect _ arrive (fuel + 1) 0 f = _
    rw [getSelect_mapValue, hk]
    rfl
  · show getSelect _ arrive (fuel + 1) 0 f = _
    rw [getSelect_mapValue, hk]
    rfl

/-- A concrete future for the C1 boundary analysis: `timeout = 2`,
`minwait = 1`, `sleeptime = 1`, empty buffer, accept-all filter. -/
def c1Future : Future ℕ :=
  { cbId := 0, con := ⟨[]⟩, messages := [], timeout := 2, minwait := 1,
    sleeptime := 1, autoclose := false, filter := fun _ => true }

/-- Producer for the C1 counterexample: one message, delivered during the
sleep that follows the poll at which the elapsed time equals `timeout`. -/
def c1Arrive : ℕ → List ℕ := fun k => if k = 3 then [7] else []

/-- C1 counterexample: at poll 2 the elapsed time is exactly `timeout = 2`
and the non-empty-plus-settled condition has never held, yet the call does
not fail — the message delivered during the next sleep makes `get_all`
return `[7]` at poll 3.  Reaching exactly `timeout` unsatisfied therefore
does not already count as a failure in the code, whose raise needs
`elapsedTime > self.timeout` strictly. -/
theorem C1_counterexample :
    (stateAt c1Arrive c1Future 2).messages = []
    ∧ ¬ settledAt c1Arrive c1Future 2
    ∧ (2 : ℚ) * c1Future.sleeptime = c1Future.timeout
    ∧ c1Future.get_all c1Arrive 10 = .ok [7] { c1Future with messages := [7] } 3 := by
  have h1 : (stateAt c1Arrive c1Future 2).messages = [] := by
    norm_num [stateAt, deliver, c1Arrive, c1Future]
  refine ⟨h1, fun hc => hc.1 h1, by norm_num [c1Future], ?_⟩
  norm_num [Future.get_all, getSelect, deliver, Future.notify, c1Future, c1Arrive]

/-- C1 witness: the amended theorem applied to `c1Future` with no arrivals
at all and fuel 3 (elapsed 3 exceeds the timeout 2). -/
theorem C1_timeout_on_empty_witness :
    ∃ k, c1Future.get_all (fun _ => []) 4 = .timeoutErr c1Future k
      ∧ c1Future.get_first (fun _ => []) 4 = .timeoutErr c1Future k
      ∧ c1Future.get_last (fun _ => []) 4 = .timeoutErr c1Future k
      ∧ c1Future.timeout < (k : ℚ) * c1Future.sleeptime
      ∧ ∀ j, j < k → (j : ℚ) * c1Future.sleeptime ≤ c1Future.timeout :=
  C1_timeout_on_empty c1Future (fun _ => []) 3 rfl (fun _ => rfl)
    (by norm_num [c1Future])

/-- C2: starting from the registration-time state (empty buffer), whenever
`get_all` returns, it returns exactly the arrivals that passed the filter, in
delivery order; at the same instant (same environment, fuel, poll index and
final state) `get_first` returns the head of that list and `get_last` its
last element. -/
theorem C2_getall_filter_order [DecidableEq α] (f : Future α)
    (arrive : ℕ → List α) (fuel : ℕ) (v : List α) (f' : Future α) (k : ℕ)
    (hreg : f.messages = [])
    (h : f.get_all arrive fuel = .ok v f' k) :
    v = (arrivalsUpTo arrive k).filter f.filter
    ∧ f.get_first arrive fuel = .ok v.head? f' k
    ∧ f.get_last arrive fuel = .ok v.getLast? f' k := by
  have h0 : getSelect id arrive fuel 0 (stateAt arrive f 0) = .ok v f' k := h
  obtain ⟨-, -, hv, -, -⟩ := getSelect_ok_spec id arrive f v f' fuel 0 k h0
  have hveq : v = (arrivalsUpTo arrive k).filter f.filter := by
    rw [hv, stateAt_messages, hreg]
    rfl
  have hid : getSelect id arrive fuel 0 f = .ok v f' k := h
  refine ⟨hveq, ?_, ?_⟩
  · show getSelect _ arrive fuel 0 f = _
    rw [getSelect_mapValue, hid]
    rfl
  · show getSelect _ arrive fuel 0 f = _
    rw [getSelect_mapValue, hid]
    rfl

/-- Concrete future for the C2 witness: filter rejecting the message 9. -/
def c2Future : Future ℕ :=
  { cbId := 0, con := ⟨[]⟩, messages := [], timeout := 3, minwait := 1,
    sleeptime := 1, autoclose := true, filter := fun n => n != 9 }

/-- Producer for the C2 witness: 9 then 4 during the first sleep. -/
def c2Arrive : ℕ → List ℕ := fun k => if k = 1 then [9, 4] else []

/-- The future left by the C2 witness run (autoclose on the empty table). -/
def c2Result : Future ℕ := { c2Future with messages := [4] }

/-- C2 witness: with arrivals 9 (filtered out) and 4, the getters settle at
poll 1 on the buffer `[4]`, first and last element 4. -/
theorem C2_getall_filter_order_witness :
    ([4] : List ℕ) = (arrivalsUpTo c2Arrive 1).filter c2Future.filter
    ∧ c2Future.get_first c2Arrive 5 = .ok (some 4) c2Result 1
    ∧ c2Future.get_last c2Arrive 5 = .ok (some 4) c2Result 1 :=
  C2_getall_filter_order c2Future c2Arrive 5 [4] c2Result 1 rfl (by
    norm_num [Future.get_all, getSelect, deliver, Future.notify, Future.close,
      Connection.unregisterAll, c2Future, c2Arrive, c2Result])

/-- C3: a getter that returns did not return before `minwait` elapsed
(`minwait <= k * sleeptime` at the exit poll, even when a message was
already buffered earlier), the buffer is non-empty there, and the exit poll
is the first one at which the non-empty-plus-settled condition held — the
accessor does not keep waiting for further messages once settled. -/
theorem C3_settle_window [DecidableEq α] (f : Future α) (arrive : ℕ → List α)
    (fuel : ℕ) (v : List α) (f' : Future α) (k : ℕ)
    (h : f.get_all arrive fuel = .ok v f' k) :
    f.minwait ≤ (k : ℚ) * f.sleeptime
    ∧ (stateAt arrive f k).messages ≠ []
    ∧ ∀ j, j < k → ¬ settledAt arrive f j := by
  have h0 : getSelect id arrive fuel 0 (stateAt arrive f 0) = .ok v f' k := h
  obtain ⟨-, hsettle, -, -, hmin⟩ := getSelect_ok_spec id arrive f v f' fuel 0 k h0
  exact ⟨hsettle.2, hsettle.1, fun j hj => (hmin j (Nat.zero_le j) hj).1⟩

/-- Concrete future for the C3 witness: `minwait = 3`, message at poll 1. -/
def c3Future : Future ℕ :=
  { cbId := 0, con := ⟨[]⟩, messages := [], timeout := 5, minwait := 3,
    sleeptime := 1, autoclose := false, filter := fun _ => true }

/-- Producer for the C3 witness: the message 8 during the first sleep. -/
def c3Arrive : ℕ → List ℕ := fun k => if k = 1 then [8] else []

/-- The future left by the C3 witness run. -/
def c3Result : Future ℕ := { c3Future with messages := [8] }

/-- C3 witness: the message arrives at poll 1, yet the getter only returns
at poll 3, the first poll with elapsed time at least `minwait = 3`. -/
theorem C3_settle_window_witness :
    c3Future.minwait ≤ (3 : ℚ) * c3Future.sleeptime
    ∧ (stateAt c3Arrive c3Future 3).messages ≠ []
    ∧ ∀ j, j < 3 → ¬ settledAt c3Arrive c3Future j :=
  C3_settle_window c3Future c3Arrive 8 [8] c3Result 3 (by
    norm_num [Future.get_all, getSelect, deliver, Future.notify,
      c3Future, c3Arrive, c3Result])

/-- C4: with autoclose on, a getter that returns has called `close()` — the
future it leaves has its callback deregistered from the connection — while
its buffer is the one selection was applied to; a getter that raises
`TimeoutException` leaves the future exactly as the deliveries made it: the
connection (hence the registrations) untouched and every buffered message
preserved, so the caller may retry. -/
theorem C4_close_on_success_only [DecidableEq α] (sel : List α → β)
    (f : Future α) (arrive : ℕ → List α) (fuel : ℕ) (v : β)
    (f1 f2 : Future α) (k1 k2 : ℕ) :
    (getSelect sel arrive fuel 0 f = .ok v f1 k1 → f.autoclose = true →
      f1.con = f.con.unregisterAll f.cbId
      ∧ f1.messages = (stateAt arrive f k1).messages)
    ∧ (getSelect sel arrive fuel 0 f = .timeoutErr f2 k2 →
      f2 = stateAt arrive f k2
      ∧ f2.con = f.con
      ∧ f2.messages = f.messages ++ (arrivalsUpTo arrive k2).filter f.filter) := by
  constructor
  · intro h ha
    have h0 : getSelect sel arrive fuel 0 (stateAt arrive f 0) = .ok v f1 k1 := h
    obtain ⟨-, -, -, hf, -⟩ := getSelect_ok_spec sel arrive f v f1 fuel 0 k1 h0
    rw [ha] at hf
    rw [if_pos rfl] at hf
    constructor
    · rw [hf]
      show (stateAt arrive f k1).con.unregisterAll (stateAt arrive f k1).cbId = _
      rw [stateAt_con, stateAt_cbId]
    · rw [hf]
      rfl
  · intro h
    have h0 : getSelect sel arrive fuel 0 (stateAt arrive f 0) = .timeoutErr f2 k2 := h
    obtain ⟨-, hf, -, -, -⟩ := getSelect_timeout_spec sel arrive f f2 fuel 0 k2 h0
    refine ⟨hf, ?_, ?_⟩
    · rw [hf, stateAt_con]
    · rw [hf, stateAt_messages]

/-- Concrete future for the C4 witness: registered under two identifiers,
one of them for another listener. -/
def c4Future : Future ℕ :=
  { cbId := 1, con := ⟨[(1, "a"), (2, "b")]⟩, messages := [], timeout := 2,
    minwait := 1, sleeptime := 1, autoclose := true, filter := fun _ => true }

/-- Producer for the successful C4 witness run. -/
def c4Arrive : ℕ → List ℕ := fun k => if k = 1 then [3] else []

/-- The future left by the successful C4 witness run: buffer `[3]`, own
registration gone, the other listener's registration kept. -/
def c4Result : Future ℕ :=
  { c4Future with messages := [3], con := ⟨[(2, "b")]⟩ }

/-- C4 witness: a run that succeeds at poll 1 after autoclosing, and a run
with no arrivals that times out at poll 3 leaving the future untouched. -/
theorem C4_close_on_success_only_witness :
    (c4Result.con = c4Future.con.unregisterAll c4Future.cbId
      ∧ c4Result.messages = (stateAt c4Arrive c4Future 1).messages)
    ∧ (c4Future = stateAt (fun _ => ([] : List ℕ)) c4Future 3
      ∧ c4Future.con = c4Future.con
      ∧ c4Future.messages
        = c4Future.messages ++ (arrivalsUpTo (fun _ => []) 3).filter c4Future.filter) :=
  ⟨(C4_close_on_success_only id c4Future c4Arrive 5 [3] c4Result c4Future 1 0).1
      (by norm_num [getSelect, deliver, Future.notify, Future.close,
        Connection.unregisterAll, c4Future, c4Arrive, c4Result]) rfl,
   (C4_close_on_success_only id c4Future (fun _ => []) 5 [] c4Future c4Future 0 3).2
      (by norm_num [getSelect, deliver, c4Future])⟩

end IbFuture
